import Mathlib

/-!
Verification of `flake8_unused_arguments.py` (flake8-unused-arguments 0.0.8).

The Python abstract syntax tree is shallowly embedded as a family of mutual
inductive types covering exactly the node kinds the plugin distinguishes
(function definitions, lambdas, names with their expression context,
attribute accesses, calls, literals, pass / raise / assign / return / if
statements, class definitions), with the child fields laid out in the order
`ast.iter_child_nodes` visits them.  Fallible attribute accesses of the
Python code (`function.name` on a lambda, `exc.func.id` on a non-name
callee, the `assert False` decorator guard, indexing an empty body) are
modelled with `Except Err`.
-/

namespace FlakeUnusedArguments

/-- Expression context of a Python `Name` node: `ast.Load`, `ast.Store` or
`ast.Del`. -/
inductive Ctx where
  | load
  | store
  | del
deriving DecidableEq

mutual

/-- Python expressions, restricted to the node kinds the plugin inspects.
`attributeExpr value attr` is `ast.Attribute`, `constNum` stands for any
other constant literal. -/
inductive Expr where
  | name (id : String) (ctx : Ctx)
  | attributeExpr (value : Expr) (attr : String)
  | call (func : Expr) (args : List Expr)
  | lambda (args : Arguments) (body : Expr)
  | binOp (left : Expr) (right : Expr)
  | str (s : String)
  | ellipsisLit
  | constNum (n : Int)

/-- Python statements.  Child fields appear in `ast` field order; in
particular `decorator_list` follows `body` for both function and class
definitions, exactly as `ast.iter_child_nodes` yields them. -/
inductive Stmt where
  | functionDef (f : FuncDef)
  | asyncFunctionDef (f : FuncDef)
  | classDef (nm : String) (bases : List Expr) (body : List Stmt) (decorator_list : List Expr)
  | ret (value : Option Expr)
  | assign (targets : List Expr) (value : Expr)
  | exprStmt (value : Expr)
  | ifStmt (test : Expr) (body : List Stmt) (orelse : List Stmt)
  | passStmt
  | raiseStmt (exc : Option Expr) (cause : Option Expr)

/-- The shared payload of `ast.FunctionDef` and `ast.AsyncFunctionDef`:
name, arguments, body, decorator list, return annotation (in field order). -/
inductive FuncDef where
  | mk (nm : String) (args : Arguments) (body : List Stmt) (decorator_list : List Expr) (returns : Option Expr)

/-- An `ast.arg` node: parameter name, optional annotation expression,
`lineno` (1-based) and `col_offset` (0-based). -/
inductive Arg where
  | mk : String → Option Expr → Nat → Nat → Arg

/-- An `ast.arguments` node, in field order: `posonlyargs`, `args`,
`vararg`, `kwonlyargs`, `kw_defaults`, `kwarg`, `defaults`. -/
inductive Arguments where
  | mk : List Arg → List Arg → Option Arg → List Arg → List (Option Expr) → Option Arg → List Expr → Arguments

end

/-- The declared parameter name of an `ast.arg` node. -/
def Arg.arg : Arg → String
  | .mk nm _ _ _ => nm

/-- The 1-based source line of an `ast.arg` node. -/
def Arg.lineno : Arg → Nat
  | .mk _ _ l _ => l

/-- The 0-based source column of an `ast.arg` node. -/
def Arg.col_offset : Arg → Nat
  | .mk _ _ _ c => c

/-- The positional-only parameters of an `ast.arguments` node. -/
def Arguments.posonlyargs : Arguments → List Arg
  | .mk p _ _ _ _ _ _ => p

/-- The plain positional parameters of an `ast.arguments` node. -/
def Arguments.args : Arguments → List Arg
  | .mk _ a _ _ _ _ _ => a

/-- The variadic-positional parameter of an `ast.arguments` node. -/
def Arguments.vararg : Arguments → Option Arg
  | .mk _ _ v _ _ _ _ => v

/-- The keyword-only parameters of an `ast.arguments` node. -/
def Arguments.kwonlyargs : Arguments → List Arg
  | .mk _ _ _ k _ _ _ => k

/-- The keyword-only default expressions of an `ast.arguments` node. -/
def Arguments.kw_defaults : Arguments → List (Option Expr)
  | .mk _ _ _ _ d _ _ => d

/-- The variadic-keyword parameter of an `ast.arguments` node. -/
def Arguments.kwarg : Arguments → Option Arg
  | .mk _ _ _ _ _ k _ => k

/-- The positional default expressions of an `ast.arguments` node. -/
def Arguments.defaults : Arguments → List Expr
  | .mk _ _ _ _ _ _ d => d

/-- The name of a `FuncDef`. -/
def FuncDef.name : FuncDef → String
  | .mk nm _ _ _ _ => nm

/-- The `ast.arguments` node of a `FuncDef`. -/
def FuncDef.args : FuncDef → Arguments
  | .mk _ a _ _ _ => a

/-- The body of a `FuncDef`. -/
def FuncDef.body : FuncDef → List Stmt
  | .mk _ _ b _ _ => b

/-- The decorator expressions of a `FuncDef`. -/
def FuncDef.decorator_list : FuncDef → List Expr
  | .mk _ _ _ d _ => d

/-- The return annotation of a `FuncDef`. -/
def FuncDef.returns : FuncDef → Option Expr
  | .mk _ _ _ _ r => r

/-- The union `FunctionTypes = Union[ast.AsyncFunctionDef, ast.FunctionDef,
ast.Lambda]` of the plugin. -/
inductive Function where
  | functionDef (f : FuncDef)
  | asyncFunctionDef (f : FuncDef)
  | lambda (args : Arguments) (body : Expr)

/-- Errors raised by the Python code: `AttributeError` from a missing
attribute, `AssertionError` from the `assert False` decorator guard,
`IndexError` from `function.body[0]` on an empty body. -/
inductive Err where
  | attributeError
  | assertionError
  | indexError
deriving DecidableEq

/-- The `args` attribute, present on all three function node kinds. -/
def Function.args : Function → Arguments
  | .functionDef f => f.args
  | .asyncFunctionDef f => f.args
  | .lambda args _ => args

/-- The `name` attribute access `function.name`: `ast.Lambda` has no such
attribute, so the access raises `AttributeError`. -/
def Function.name : Function → Except Err String
  | .functionDef f => .ok f.name
  | .asyncFunctionDef f => .ok f.name
  | .lambda _ _ => .error .attributeError

/-- An `ast.Module`: the plugin only ever touches its `body`. -/
abbrev Module := List Stmt

/-- The module-level `MAGIC_METHODS` set, transcribed verbatim (note the
`__rfloordev__` spelling on the source's line 61). -/
def MAGIC_METHODS : List String := [
  "__del__", "__repr__", "__str__", "__bytes__", "__format__",
  "__lt__", "__le__", "__eq__", "__ne__", "__gt__", "__ge__",
  "__hash__", "__bool__",
  "__getattr__", "__getattribute__", "__setattr__", "__delattr__", "__dir__",
  "__instancecheck__", "__subclasscheck__", "__class_getitem__",
  "__len__", "__length_hint__", "__getitem__", "__setitem__", "__delitem__",
  "__missing__", "__iter__", "__reversed__", "__contains__",
  "__add__", "__sub__", "__mul__", "__matmul__", "__truediv__",
  "__floordiv__", "__mod__", "__divmod__", "__pow__", "__lshift__",
  "__rshift__", "__and__", "__xor__", "__or__",
  "__radd__", "__rsub__", "__rmul__", "__rtruediv__", "__rfloordev__",
  "__rmod__", "__rdivmod__", "__rpow__", "__rlshift__", "__rrshift__",
  "__rand__", "__rxor__", "__ror__",
  "__iadd__", "__isub__", "__imul__", "__imatmul__", "__itruediv__",
  "__ifloordiv__", "__imod__", "__ipow__", "__ilshift__", "__irshift__",
  "__iand__", "__ixor__", "__ior__",
  "__neg__", "__pos__", "__abs__", "__invert__",
  "__complex__", "__int__", "__float__", "__index__",
  "__trunc__", "__floor__", "__ceil__",
  "__enter__", "__exit__",
  "__await__", "__aiter__", "__anext__", "__aenter__", "__aexit__"]

/-- The plugin's five configuration switches (class attributes of `Plugin`,
all defaulting to `False`). -/
structure Config where
  ignore_abstract : Bool
  ignore_overload : Bool
  ignore_magic : Bool
  ignore_stubs : Bool
  ignore_variadic_names : Bool

/-- All five switches off: the plugin's default configuration. -/
def cfgNone : Config := ⟨false, false, false, false, false⟩

/-- Only `ignore_magic` on. -/
def cfgMagic : Config := ⟨false, false, true, false, false⟩

/-- Only `ignore_stubs` on. -/
def cfgStubs : Config := ⟨false, false, false, true, false⟩

/-- The 4-tuple yielded by `Plugin.run`: `(line, offset, text, check)`. -/
abbrev LintResult := Nat × Nat × String × String

mutual

/-- `FunctionFinder` on a statement: the three `visit_...` methods append
the function node and do not call `generic_visit`, so traversal stops at
every function node; all other statements are handled by `generic_visit`,
which recurses into child nodes in field order. -/
def findStmt : Stmt → List Function
  | .functionDef f => [.functionDef f]
  | .asyncFunctionDef f => [.asyncFunctionDef f]
  | .classDef _ bases body decorator_list =>
      findExprList bases ++ findStmtList body ++ findExprList decorator_list
  | .ret value => findExprOpt value
  | .assign targets value => findExprList targets ++ findExpr value
  | .exprStmt value => findExpr value
  | .ifStmt test body orelse => findExpr test ++ findStmtList body ++ findStmtList orelse
  | .passStmt => []
  | .raiseStmt exc cause => findExprOpt exc ++ findExprOpt cause

/-- `FunctionFinder` on an expression; `visit_Lambda` appends without
recursing. -/
def findExpr : Expr → List Function
  | .name _ _ => []
  | .attributeExpr value _ => findExpr value
  | .call func args => findExpr func ++ findExprList args
  | .lambda args body => [.lambda args body]
  | .binOp left right => findExpr left ++ findExpr right
  | .str _ => []
  | .ellipsisLit => []
  | .constNum _ => []

/-- `FunctionFinder` over a statement list. -/
def findStmtList : List Stmt → List Function
  | [] => []
  | s :: rest => findStmt s ++ findStmtList rest

/-- `FunctionFinder` over an expression list. -/
def findExprList : List Expr → List Function
  | [] => []
  | e :: rest => findExpr e ++ findExprList rest

/-- `FunctionFinder` over an optional expression field. -/
def findExprOpt : Option Expr → List Function
  | none => []
  | some e => findExpr e

end

/-- `FunctionFinder().visit(tree)` followed by reading `.functions`:
`visit` on the module dispatches to `generic_visit`, which visits the
module body in order. -/
def collectFunctions (tree : Module) : List Function := findStmtList tree

mutual

/-- `NameFinder` of `get_unused_arguments` on a statement: collects the
`id` of every `Name` node whose `ctx` is not `Store`, in visit order. -/
def namesStmt : Stmt → List String
  | .functionDef f => namesFuncDef f
  | .asyncFunctionDef f => namesFuncDef f
  | .classDef _ bases body decorator_list =>
      namesExprList bases ++ namesStmtList body ++ namesExprList decorator_list
  | .ret value => namesExprOpt value
  | .assign targets value => namesExprList targets ++ namesExpr value
  | .exprStmt value => namesExpr value
  | .ifStmt test body orelse => namesExpr test ++ namesStmtList body ++ namesStmtList orelse
  | .passStmt => []
  | .raiseStmt exc cause => namesExprOpt exc ++ namesExprOpt cause

/-- `NameFinder` on an expression: `visit_Name` returns early on a `Store`
context and otherwise records the identifier. -/
def namesExpr : Expr → List String
  | .name id ctx => if ctx = .store then [] else [id]
  | .attributeExpr value _ => namesExpr value
  | .call func args => namesExpr func ++ namesExprList args
  | .lambda args body => namesArguments args ++ namesExpr body
  | .binOp left right => namesExpr left ++ namesExpr right
  | .str _ => []
  | .ellipsisLit => []
  | .constNum _ => []

/-- `NameFinder` on the payload of a function definition, in field order:
arguments, body, decorators, return annotation. -/
def namesFuncDef : FuncDef → List String
  | .mk _ args body decorator_list returns =>
      namesArguments args ++ namesStmtList body ++ namesExprList decorator_list
        ++ namesExprOpt returns

/-- `NameFinder` on an `ast.arguments` node, in field order. -/
def namesArguments : Arguments → List String
  | .mk posonlyargs args vararg kwonlyargs kw_defaults kwarg defaults =>
      namesArgList posonlyargs ++ namesArgList args ++ namesArgOpt vararg
        ++ namesArgList kwonlyargs ++ namesExprOptList kw_defaults
        ++ namesArgOpt kwarg ++ namesExprList defaults

/-- `NameFinder` on an `ast.arg` node: only the annotation holds child
nodes. -/
def namesArg : Arg → List String
  | .mk _ ann _ _ => namesExprOpt ann

/-- `NameFinder` over a statement list. -/
def namesStmtList : List Stmt → List String
  | [] => []
  | s :: rest => namesStmt s ++ namesStmtList rest

/-- `NameFinder` over an expression list. -/
def namesExprList : List Expr → List String
  | [] => []
  | e :: rest => namesExpr e ++ namesExprList rest

/-- `NameFinder` over an optional expression field. -/
def namesExprOpt : Option Expr → List String
  | none => []
  | some e => namesExpr e

/-- `NameFinder` over a list of optional expressions (`kw_defaults`). -/
def namesExprOptList : List (Option Expr) → List String
  | [] => []
  | e :: rest => namesExprOpt e ++ namesExprOptList rest

/-- `NameFinder` over a parameter list. -/
def namesArgList : List Arg → List String
  | [] => []
  | a :: rest => namesArg a ++ namesArgList rest

/-- `NameFinder` over an optional parameter. -/
def namesArgOpt : Option Arg → List String
  | none => []
  | some a => namesArg a
end

/-- `NameFinder().visit(function)`: the function node itself has no
dedicated visitor, so `generic_visit` recurses into all of its fields. -/
def usedNames : Function → List String
  | .functionDef f => namesFuncDef f
  | .asyncFunctionDef f => namesFuncDef f
  | .lambda args body => namesArguments args ++ namesExpr body

/-- `get_arguments` (source lines 234-254): plain positional parameters,
then the `*args` parameter, then keyword-only parameters, then the
`**kwargs` parameter.  (`posonlyargs` is never consulted.) -/
def get_arguments (function : Function) : List Arg :=
  let args := Function.args function
  let ordered_arguments : List Arg := []
  let ordered_arguments := ordered_arguments ++ args.args
  let ordered_arguments := ordered_arguments ++
    (match args.vararg with
     | some v => [v]
     | none => [])
  let ordered_arguments := ordered_arguments ++ args.kwonlyargs
  let ordered_arguments := ordered_arguments ++
    (match args.kwarg with
     | some k => [k]
     | none => [])
  ordered_arguments

/-- `get_unused_arguments` (source lines 217-231): enumerate the arguments,
then let every visited non-`Store` name filter out same-named entries. -/
def get_unused_arguments (function : Function) : List (Nat × Arg) :=
  let arguments := (get_arguments function).enum
  (usedNames function).foldl
    (fun arguments nm => arguments.filter fun p => !(p.2.arg == nm)) arguments

/-- `get_decorator_names` (source lines 257-272): a lambda yields nothing;
a `Name` decorator yields its `id`, an `Attribute` its `attr`, a `Call`
the `id` of its callee when the callee is a `Name` and otherwise the
callee's `attr` attribute (an `AttributeError` when the callee has none);
any other decorator shape trips `assert False`. -/
def get_decorator_names (function : Function) : Except Err (List String) :=
  match function with
  | .lambda _ _ => .ok []
  | .functionDef f | .asyncFunctionDef f =>
    f.decorator_list.mapM fun decorator =>
      match decorator with
      | .name id _ => .ok id
      | .attributeExpr _ attr => .ok attr
      | .call func _ =>
        match func with
        | .name id _ => .ok id
        | .attributeExpr _ attr => .ok attr
        | _ => .error .attributeError
      | _ => .error .assertionError

/-- The trailing checks of `is_stub_function` on the statement under test:
`pass`, a bare `...` expression, or a `raise` of `NotImplementedError`
(directly or as a call).  `statement.exc.func.id` raises `AttributeError`
when the raised call's callee is not a plain name. -/
def stubStatement : Stmt → Except Err Bool
  | .passStmt => .ok true
  | .exprStmt .ellipsisLit => .ok true
  | .raiseStmt exc _ =>
    match exc with
    | some (.call func _) =>
      match func with
      | .name id _ => .ok (id == "NotImplementedError")
      | _ => .error .attributeError
    | some (.name id _) => .ok (id == "NotImplementedError")
    | _ => .ok false
  | _ => .ok false

/-- `is_stub_function` (source lines 275-306): a lambda is a stub iff its
body is the ellipsis literal; otherwise the first body statement is tested,
with a leading docstring skipped (a docstring-only body is a stub), and an
empty body would hit `function.body[0]` and raise `IndexError`. -/
def is_stub_function (function : Function) : Except Err Bool :=
  match function with
  | .lambda _ body =>
    .ok (match body with
         | .ellipsisLit => true
         | _ => false)
  | .functionDef f | .asyncFunctionDef f =>
    match f.body with
    | [] => .error .indexError
    | statement :: rest =>
      match statement, rest with
      | .exprStmt (.str _), [] => .ok true
      | .exprStmt (.str _), second :: _ => stubStatement second
      | _, _ => stubStatement statement

/-- The per-function suppression checks at the top of `Plugin.run`'s loop
(source lines 177-188), in source order: `ignore_abstract`,
`ignore_overload`, `ignore_magic` (which reads `function.name`), then
`ignore_stubs` (which calls `is_stub_function`); short-circuiting means the
fallible accesses only happen when the corresponding switch is on. -/
def skipFunction (cfg : Config) (function : Function) (decorator_names : List String) : Except Err Bool :=
  if cfg.ignore_abstract && decorator_names.contains "abstractmethod" then .ok true
  else if cfg.ignore_overload && decorator_names.contains "overload" then .ok true
  else
    match (if cfg.ignore_magic then
             Except.map (fun nm => MAGIC_METHODS.contains nm) (Function.name function)
           else .ok false) with
    | .error e => .error e
    | .ok true => .ok true
    | .ok false =>
      if cfg.ignore_stubs then is_stub_function function else .ok false

/-- Python's `name.startswith("_")` for the one-character prefix used by
the plugin: true exactly when the first character of `name` is an
underscore. -/
def startswithUnderscore (name : String) : Bool :=
  match name.data with
  | [] => false
  | c :: _ => c == '_'

/-- The per-argument body of `Plugin.run`'s inner loop (source lines
190-214): `ignore_variadic_names` skips the `*args`/`**kwargs` names, the
implicit receiver (`index 0` and named `self`, or any first argument of a
`classmethod`) is skipped, and otherwise a lint tuple is built from the
argument's position, the `U101`/`U100` code chosen by the leading
underscore, and the fixed message template. -/
def emitArgument (cfg : Config) (function : Function) (decorator_names : List String)
    (i : Nat) (argument : Arg) : Option LintResult :=
  let name := argument.arg
  if cfg.ignore_variadic_names &&
      (((Function.args function).vararg.any fun v => v.arg == name) ||
       ((Function.args function).kwarg.any fun k => k.arg == name)) then
    none
  else if i == 0 && (name == "self" || decorator_names.contains "classmethod") then
    none
  else
    let line_number := argument.lineno
    let offset := argument.col_offset
    let error_code := if startswithUnderscore name then "U101" else "U100"
    let text := error_code ++ " Unused argument \x27" ++ name ++ "\x27"
    let check := "unused argument"
    some (line_number, offset, text, check)

/-- One iteration of `Plugin.run`'s outer loop: compute the decorator
names, apply the whole-function suppressions, then process the unused
arguments. -/
def runFunction (cfg : Config) (function : Function) : Except Err (List LintResult) := do
  let decorator_names ← get_decorator_names function
  let skip ← skipFunction cfg function decorator_names
  if skip then
    return []
  return (get_unused_arguments function).filterMap fun p =>
    emitArgument cfg function decorator_names p.1 p.2

/-- `Plugin.run` (source lines 172-214): collect the functions, process
each in order, and concatenate the yielded lint tuples.  An uncaught
Python exception anywhere aborts the run, modelled by the `Except` error
short-circuiting. -/
def Plugin.run (cfg : Config) (tree : Module) : Except Err (List LintResult) := do
  let functions := collectFunctions tree
  let results ← functions.mapM (runFunction cfg)
  return results.flatten

mutual

/-- Reference definition following the spec's Function-Collector contract:
every function-like node in a statement, nested ones included, in
depth-first traversal order (child fields in `ast` field order). -/
def allStmt : Stmt → List Function
  | .functionDef f => .functionDef f :: allFuncDef f
  | .asyncFunctionDef f => .asyncFunctionDef f :: allFuncDef f
  | .classDef _ bases body decorator_list =>
      allExprList bases ++ allStmtList body ++ allExprList decorator_list
  | .ret value => allExprOpt value
  | .assign targets value => allExprList targets ++ allExpr value
  | .exprStmt value => allExpr value
  | .ifStmt test body orelse => allExpr test ++ allStmtList body ++ allStmtList orelse
  | .passStmt => []
  | .raiseStmt exc cause => allExprOpt exc ++ allExprOpt cause

/-- Every function-like node in an expression, nested ones included. -/
def allExpr : Expr → List Function
  | .name _ _ => []
  | .attributeExpr value _ => allExpr value
  | .call func args => allExpr func ++ allExprList args
  | .lambda args body => .lambda args body :: (allArguments args ++ allExpr body)
  | .binOp left right => allExpr left ++ allExpr right
  | .str _ => []
  | .ellipsisLit => []
  | .constNum _ => []

/-- Every function-like node strictly inside a function definition's own
fields (arguments, body, decorators, return annotation). -/
def allFuncDef : FuncDef → List Function
  | .mk _ args body decorator_list returns =>
      allArguments args ++ allStmtList body ++ allExprList decorator_list
        ++ allExprOpt returns

/-- Every function-like node inside an `ast.arguments` node (annotations
and default expressions can hold lambdas). -/
def allArguments : Arguments → List Function
  | .mk posonlyargs args vararg kwonlyargs kw_defaults kwarg defaults =>
      allArgList posonlyargs ++ allArgList args ++ allArgOpt vararg
        ++ allArgList kwonlyargs ++ allExprOptList kw_defaults
        ++ allArgOpt kwarg ++ allExprList defaults

/-- Every function-like node inside an `ast.arg` node's annotation. -/
def allArg : Arg → List Function
  | .mk _ ann _ _ => allExprOpt ann

/-- Full traversal over a statement list. -/
def allStmtList : List Stmt → List Function
  | [] => []
  | s :: rest => allStmt s ++ allStmtList rest

/-- Full traversal over an expression list. -/
def allExprList : List Expr → List Function
  | [] => []
  | e :: rest => allExpr e ++ allExprList rest

/-- Full traversal over an optional expression field. -/
def allExprOpt : Option Expr → List Function
  | none => []
  | some e => allExpr e

/-- Full traversal over a list of optional expressions. -/
def allExprOptList : List (Option Expr) → List Function
  | [] => []
  | e :: rest => allExprOpt e ++ allExprOptList rest

/-- Full traversal over a parameter list. -/
def allArgList : List Arg → List Function
  | [] => []
  | a :: rest => allArg a ++ allArgList rest

/-- Full traversal over an optional parameter. -/
def allArgOpt : Option Arg → List Function
  | none => []
  | some a => allArg a

end

/-- Reference definition following the spec's words: the ordered sequence
of every function-like node of the tree, functions nested inside other
functions included. -/
def allFunctionNodes (tree : Module) : List Function := allStmtList tree

/-- The function-like nodes strictly inside a given function node, in
traversal order. -/
def functionsWithin : Function → List Function
  | .functionDef f => allFuncDef f
  | .asyncFunctionDef f => allFuncDef f
  | .lambda args body => allArguments args ++ allExpr body

/-- Arguments node with only plain positional parameters. -/
def plainArguments (l : List Arg) : Arguments := .mk [] l none [] [] none []

/-- `def f(x): x = 5` — the parameter is only ever an assignment target. -/
def assignOnlyFunction : Function :=
  .functionDef (.mk "f" (plainArguments [.mk "x" none 1 6])
    [.assign [.name "x" .store] (.constNum 5)] [] none)

/-- The inner `def internal(): a + b` of the nested-function example. -/
def internalDef : FuncDef :=
  .mk "internal" (plainArguments [])
    [.exprStmt (.binOp (.name "a" .load) (.name "b" .load))] [] none

/-- `def external(a, b, c):` with `internal` nested in its body: the reads
of `a` and `b` happen only inside the nested closure. -/
def externalDef : FuncDef :=
  .mk "external" (plainArguments [.mk "a" none 2 13, .mk "b" none 2 16, .mk "c" none 2 19])
    [.functionDef internalDef] [] none

/-- The outer function as a collected function node. -/
def externalFunction : Function := .functionDef externalDef

/-- The nested function as a function node. -/
def internalFunction : Function := .functionDef internalDef

/-- A module whose only top-level statement is `external` (with `internal`
nested inside). -/
def nestedModule : Module := [.functionDef externalDef]

/-- `@deco(x)` applied to `def f(x): pass` — the parameter's name is read
only inside the decorator expression. -/
def decoratorUseFunction : Function :=
  .functionDef (.mk "f" (plainArguments [.mk "x" none 2 6]) [.passStmt]
    [.call (.name "deco" .load) [.name "x" .load]] none)

/-- `def f(x=x): pass` — the parameter's name is read only in a default
value expression. -/
def defaultUseFunction : Function :=
  .functionDef (.mk "f" (.mk [] [.mk "x" none 1 6] none [] [] none [.name "x" .load])
    [.passStmt] [] none)

/-- `def f(x: x): pass` — the parameter's name is read only in the
parameter's own annotation. -/
def annotationUseFunction : Function :=
  .functionDef (.mk "f" (plainArguments [.mk "x" (some (.name "x" .load)) 1 6])
    [.passStmt] [] none)

/-- `def f(x) -> x: pass` — the parameter's name is read only in the return
annotation. -/
def returnAnnotationUseFunction : Function :=
  .functionDef (.mk "f" (plainArguments [.mk "x" none 1 6]) [.passStmt] []
    (some (.name "x" .load)))

/-- `def f(x): pass` — one plainly unused parameter. -/
def plainUnusedFunction : Function :=
  .functionDef (.mk "f" (plainArguments [.mk "x" none 1 6]) [.passStmt] [] none)

/-- `def foo(a, b, *args, c, d=5, e, **kwargs): pass` — every parameter
kind except positional-only. -/
def bigFunction : Function :=
  .functionDef (.mk "foo"
    (.mk [] [.mk "a" none 1 8, .mk "b" none 1 11] (some (.mk "args" none 1 15))
      [.mk "c" none 1 21, .mk "d" none 1 24, .mk "e" none 1 29]
      [none, some (.constNum 5), none] (some (.mk "kwargs" none 1 34)) [])
    [.passStmt] [] none)

/-- The `self` of `def method(self, /, x): pass`, declared positional-only. -/
def posonlySelfArg : Arg := .mk "self" none 1 11

/-- The plain positional `x` of `def method(self, /, x): pass`. -/
def posonlyXArg : Arg := .mk "x" none 1 20

/-- `def method(self, /, x): pass` — the receiver sits in `posonlyargs`. -/
def posonlyFunction : Function :=
  .functionDef (.mk "method" (.mk [posonlySelfArg] [posonlyXArg] none [] [] none [])
    [.passStmt] [] none)

/-- `def __exit__(self, exc_type, exc_val, exc_tb): pass`. -/
def exitDef : FuncDef :=
  .mk "__exit__" (plainArguments [.mk "self" none 7 17, .mk "exc_type" none 7 23,
    .mk "exc_val" none 7 33, .mk "exc_tb" none 7 42]) [.passStmt] [] none

/-- The `__exit__` method as a function node. -/
def exitFunction : Function := .functionDef exitDef

/-- `class Foo:` containing only the `__exit__` method. -/
def exitModule : Module := [.classDef "Foo" [] [.functionDef exitDef] []]

/-- `def foo(_a): pass` in a module. -/
def underscoreModule : Module :=
  [.functionDef (.mk "foo" (plainArguments [.mk "_a" none 2 8]) [.passStmt] [] none)]

/-- `l = lambda g: 5` as a module. -/
def lambdaModule : Module :=
  [.assign [.name "l" .store]
    (.lambda (plainArguments [.mk "g" none 1 11]) (.constNum 5))]

/-- `def foo(a): raise errors.NotImplementedError()` — the raised call's
callee is an attribute access, not a bare name. -/
def qualifiedRaiseFunction : Function :=
  .functionDef (.mk "foo" (plainArguments [.mk "a" none 1 8])
    [.raiseStmt (some (.call (.attributeExpr (.name "errors" .load) "NotImplementedError") []))
      none] [] none)

/-- A module containing only the qualified-raise function. -/
def qualifiedRaiseModule : Module :=
  [.functionDef (.mk "foo" (plainArguments [.mk "a" none 1 8])
    [.raiseStmt (some (.call (.attributeExpr (.name "errors" .load) "NotImplementedError") []))
      none] [] none)]

/-- `def foo(): raise NotImplementedError()`. -/
def callRaiseNIEFunction : Function :=
  .functionDef (.mk "foo" (plainArguments [])
    [.raiseStmt (some (.call (.name "NotImplementedError" .load) [])) none] [] none)

/-- `def foo(): raise NotImplementedError`. -/
def bareRaiseNIEFunction : Function :=
  .functionDef (.mk "foo" (plainArguments [])
    [.raiseStmt (some (.name "NotImplementedError" .load)) none] [] none)

/-- `def foo(): raise SomethingElse()`. -/
def otherRaiseFunction : Function :=
  .functionDef (.mk "foo" (plainArguments [])
    [.raiseStmt (some (.call (.name "SomethingElse" .load) [])) none] [] none)

/-- `def foo(): 'with docstring'` — a docstring-only body. -/
def docOnlyFunction : Function :=
  .functionDef (.mk "foo" (plainArguments []) [.exprStmt (.str "with docstring")] [] none)

/-- `def foo(): return 5`. -/
def returnFiveFunction : Function :=
  .functionDef (.mk "foo" (plainArguments []) [.ret (some (.constNum 5))] [] none)

/-- `class C:` containing `def __rfloordiv__(self, other): pass` (the real
reflected-floor-division hook name). -/
def rfloordivModule : Module :=
  [.classDef "C" []
    [.functionDef (.mk "__rfloordiv__"
      (plainArguments [.mk "self" none 2 22, .mk "other" none 2 28]) [.passStmt] [] none)] []]

/-- `class C:` containing `def __radd__(self, other): pass`. -/
def raddModule : Module :=
  [.classDef "C" []
    [.functionDef (.mk "__radd__"
      (plainArguments [.mk "self" none 2 17, .mk "other" none 2 23]) [.passStmt] [] none)] []]

mutual

/-- The full traversal of a statement factors through the collector:
each collected function node, followed by the function nodes nested
inside it. -/
theorem allStmt_factor : (s : Stmt) →
    allStmt s = (findStmt s).flatMap (fun f => f :: functionsWithin f)
  | .functionDef f => by
      simp [allStmt, findStmt, functionsWithin]
  | .asyncFunctionDef f => by
      simp [allStmt, findStmt, functionsWithin]
  | .classDef nm bases body decorator_list => by
      simp [allStmt, findStmt, List.flatMap_append, allExprList_factor bases,
        allStmtList_factor body, allExprList_factor decorator_list]
  | .ret value => by
      simp [allStmt, findStmt, allExprOpt_factor value]
  | .assign targets value => by
      simp [allStmt, findStmt, List.flatMap_append, allExprList_factor targets,
        allExpr_factor value]
  | .exprStmt value => by
      simp [allStmt, findStmt, allExpr_factor value]
  | .ifStmt test body orelse => by
      simp [allStmt, findStmt, List.flatMap_append, allExpr_factor test,
        allStmtList_factor body, allStmtList_factor orelse]
  | .passStmt => by
      simp [allStmt, findStmt]
  | .raiseStmt exc cause => by
      simp [allStmt, findStmt, List.flatMap_append, allExprOpt_factor exc,
        allExprOpt_factor cause]

/-- The full traversal of an expression factors through the collector. -/
theorem allExpr_factor : (e : Expr) →
    allExpr e = (findExpr e).flatMap (fun f => f :: functionsWithin f)
  | .name id ctx => by simp [allExpr, findExpr]
  | .attributeExpr value attr => by
      simp [allExpr, findExpr, allExpr_factor value]
  | .call func args => by
      simp [allExpr, findExpr, List.flatMap_append, allExpr_factor func,
        allExprList_factor args]
  | .lambda args body => by
      simp [allExpr, findExpr, functionsWithin]
  | .binOp left right => by
      simp [allExpr, findExpr, List.flatMap_append, allExpr_factor left,
        allExpr_factor right]
  | .str s => by simp [allExpr, findExpr]
  | .ellipsisLit => by simp [allExpr, findExpr]
  | .constNum n => by simp [allExpr, findExpr]

/-- The factorization over statement lists. -/
theorem allStmtList_factor : (ss : List Stmt) →
    allStmtList ss = (findStmtList ss).flatMap (fun f => f :: functionsWithin f)
  | [] => by simp [allStmtList, findStmtList]
  | s :: rest => by
      simp [allStmtList, findStmtList, List.flatMap_append, allStmt_factor s,
        allStmtList_factor rest]

/-- The factorization over expression lists. -/
theorem allExprList_factor : (es : List Expr) →
    allExprList es = (findExprList es).flatMap (fun f => f :: functionsWithin f)
  | [] => by simp [allExprList, findExprList]
  | e :: rest => by
      simp [allExprList, findExprList, List.flatMap_append, allExpr_factor e,
        allExprList_factor rest]

/-- The factorization over optional expression fields. -/
theorem allExprOpt_factor : (e : Option Expr) →
    allExprOpt e = (findExprOpt e).flatMap (fun f => f :: functionsWithin f)
  | none => by simp [allExprOpt, findExprOpt]
  | some e => by simp [allExprOpt, findExprOpt, allExpr_factor e]

end

/-- Folding the per-name filters of `NameFinder` over the tracked argument
list is the same as one filter keeping the arguments whose name was never
visited. -/
theorem foldl_filter_eq_filter (names : List String) (l : List (Nat × Arg)) :
    names.foldl (fun acc nm => acc.filter fun p => !(p.2.arg == nm)) l
      = l.filter fun p => !(names.contains p.2.arg) := by
  induction names generalizing l with
  | nil => simp [List.contains]
  | cons nm rest ih =>
      rw [List.foldl_cons, ih, List.filter_filter]
      congr 1
      funext a
      cases h : a.2.arg == nm with
      | true => simp [List.contains, List.elem, h]
      | false => simp [List.contains, List.elem, h]

/-- Closed form of `get_unused_arguments`: the enumerated arguments whose
name has no non-`Store` occurrence anywhere in the function node. -/
theorem get_unused_arguments_eq (function : Function) :
    get_unused_arguments function
      = ((get_arguments function).enum).filter
          fun p => !((usedNames function).contains p.2.arg) :=
  foldl_filter_eq_filter (usedNames function) ((get_arguments function).enum)

/-- C4: a parameter stays in the unused list precisely when no read-role
(non-`Store`) occurrence of its name appears anywhere textually inside the
function node — nested closures included — while assignment targets never
count; the surviving entries keep their original indices and order (a
sublist of the enumeration).  Concretely, `def f(x): x = 5` still reports
`x`, and in `def external(a, b, c)` whose nested `def internal()` reads
`a + b`, only `c` is reported. -/
theorem C4_reads_exclude_assignments_do_not :
    (∀ function : Function,
      get_unused_arguments function
        = ((get_arguments function).enum).filter
            fun p => !((usedNames function).contains p.2.arg))
    ∧ (∀ function : Function,
        (get_unused_arguments function).Sublist ((get_arguments function).enum))
    ∧ (get_unused_arguments assignOnlyFunction).map (fun p => p.2.arg) = ["x"]
    ∧ (get_unused_arguments externalFunction).map (fun p => p.2.arg) = ["c"] := by
  refine ⟨get_unused_arguments_eq, fun function => ?_, rfl, rfl⟩
  rw [get_unused_arguments_eq]
  exact List.filter_sublist _

/-- C9: every reported parameter's name has no non-`Store` occurrence
anywhere in the function node, and occurrences in the function's own
decorator expressions, parameter default values, parameter annotations and
return annotation all count as uses and empty the unused list. -/
theorem C9_outer_position_reads_count :
    (∀ (function : Function) (i : Nat) (a : Arg),
        (i, a) ∈ get_unused_arguments function →
        (usedNames function).contains a.arg = false)
    ∧ get_unused_arguments decoratorUseFunction = []
    ∧ get_unused_arguments defaultUseFunction = []
    ∧ get_unused_arguments annotationUseFunction = []
    ∧ get_unused_arguments returnAnnotationUseFunction = [] := by
  refine ⟨?_, rfl, rfl, rfl, rfl⟩
  intro function i a h
  rw [get_unused_arguments_eq] at h
  have h2 := List.of_mem_filter h
  simpa using h2

/-- Witness for C9 at `def f(x): pass`, whose sole parameter is reported. -/
theorem C9_outer_position_reads_count_witness :
    (usedNames plainUnusedFunction).contains (Arg.mk "x" none 1 6).arg = false :=
  C9_outer_position_reads_count.1 plainUnusedFunction 0 (Arg.mk "x" none 1 6)
    (by rw [show get_unused_arguments plainUnusedFunction
              = [(0, Arg.mk "x" none 1 6)] from rfl]
        exact List.mem_singleton.mpr rfl)

/-- C3 is false as stated: `def method(self, /, x)` declares `self`
positional-only, and the extractor returns only `[x]` — the positional-only
parameter is omitted, so the implicit receiver is not at index 0. -/
theorem C3_counterexample_positional_only :
    (Function.args posonlyFunction).posonlyargs = [posonlySelfArg]
    ∧ get_arguments posonlyFunction = [posonlyXArg]
    ∧ posonlySelfArg ∉ get_arguments posonlyFunction := by
  refine ⟨rfl, rfl, ?_⟩
  intro h
  rw [show get_arguments posonlyFunction = [posonlyXArg] from rfl] at h
  exact absurd (congrArg Arg.arg (List.mem_singleton.mp h)) (by decide)

/-- C3 (amended): the extractor returns the plain positional parameters in
declared order (positional-only parameters are omitted), then the
variadic-positional parameter if declared, then the keyword-only
parameters in declared order, then the variadic-keyword parameter if
declared. -/
theorem C3_amended_call_bindable_order :
    (∀ function : Function,
      get_arguments function
        = (Function.args function).args
          ++ (Function.args function).vararg.toList
          ++ (Function.args function).kwonlyargs
          ++ (Function.args function).kwarg.toList)
    ∧ (get_arguments bigFunction).map Arg.arg
        = ["a", "b", "args", "c", "d", "e", "kwargs"] := by
  refine ⟨?_, rfl⟩
  intro function
  rcases hv : (Function.args function).vararg with _ | v <;>
    rcases hk : (Function.args function).kwarg with _ | k <;>
      simp [get_arguments, hv, hk, Option.toList]

/-- C1 is false as stated: the collector's function visitors do not
recurse, so `internal`, a function node nested in `external`'s body, is in
the tree but absent from the collector's output. -/
theorem C1_counterexample_nested_function :
    internalFunction ∈ allFunctionNodes nestedModule
    ∧ collectFunctions nestedModule = [externalFunction]
    ∧ collectFunctions nestedModule ≠ allFunctionNodes nestedModule := by
  refine ⟨?_, rfl, ?_⟩
  · rw [show allFunctionNodes nestedModule
          = [externalFunction, internalFunction] from rfl]
    exact List.mem_cons_of_mem _ (List.mem_singleton.mpr rfl)
  · intro h
    exact absurd (congrArg List.length h) (by decide)

/-- C1 (amended): the collector returns exactly the outermost
function-like nodes — those not nested inside another function-like node —
in the order the depth-first field-order traversal meets them: the full
enumeration of function nodes factors as each collected node followed by
the function nodes nested within it. -/
theorem C1_amended_outermost_functions :
    (∀ tree : Module,
      allFunctionNodes tree
        = (collectFunctions tree).flatMap (fun f => f :: functionsWithin f))
    ∧ collectFunctions nestedModule = [externalFunction]
    ∧ functionsWithin externalFunction = [internalFunction] :=
  ⟨fun tree => allStmtList_factor tree, rfl, rfl⟩

/-- C5: when name and stub classification succeed, a function is skipped
whole exactly when one of the four configured suppressions fires; with all
switches off nothing is ever skipped at this step; and `__exit__` with
unused `exc_type`, `exc_val`, `exc_tb` yields three diagnostics without
`ignore_magic` and none with it. -/
theorem C5_whole_function_suppressions :
    (∀ (cfg : Config) (function : Function) (decorator_names : List String)
        (nm : String) (st : Bool),
        Function.name function = .ok nm →
        is_stub_function function = .ok st →
        (skipFunction cfg function decorator_names = .ok true ↔
          (cfg.ignore_abstract = true ∧ "abstractmethod" ∈ decorator_names)
          ∨ (cfg.ignore_overload = true ∧ "overload" ∈ decorator_names)
          ∨ (cfg.ignore_magic = true ∧ nm ∈ MAGIC_METHODS)
          ∨ (cfg.ignore_stubs = true ∧ st = true)))
    ∧ (∀ (function : Function) (decorator_names : List String),
        skipFunction cfgNone function decorator_names = .ok false)
    ∧ Plugin.run cfgNone exitModule
        = .ok [(7, 23, "U100 Unused argument \x27exc_type\x27", "unused argument"),
               (7, 33, "U100 Unused argument \x27exc_val\x27", "unused argument"),
               (7, 42, "U100 Unused argument \x27exc_tb\x27", "unused argument")]
    ∧ Plugin.run cfgMagic exitModule = .ok [] := by
  refine ⟨?_, fun function decorator_names => rfl, rfl, rfl⟩
  intro cfg function decorator_names nm st h1 h2
  rcases cfg with ⟨ia, io, im, ist, iv⟩
  simp only [skipFunction, h1, h2]
  cases ia <;> cases io <;> cases im <;> cases ist <;>
    by_cases hA : "abstractmethod" ∈ decorator_names <;>
    by_cases hO : "overload" ∈ decorator_names <;>
    by_cases hM : nm ∈ MAGIC_METHODS <;>
    cases hS : st <;>
      simp [hA, hO, hM, hS, Except.map]

/-- Witness for C5: `__exit__` with `ignore_magic` on and no decorators is
skipped, via the magic-name disjunct. -/
theorem C5_whole_function_suppressions_witness :
    skipFunction cfgMagic exitFunction [] = .ok true :=
  (C5_whole_function_suppressions.1 cfgMagic exitFunction [] "__exit__" true rfl rfl).mpr
    (Or.inr (Or.inr (Or.inl ⟨rfl, by decide⟩)))

/-- C6: an unused parameter at index 0 named `self`, or at index 0 of a
`classmethod`-decorated function, is never emitted, whatever the
configuration; and with `ignore_variadic_names` off (isolating this rule)
every other unused parameter is emitted. -/
theorem C6_implicit_receiver_suppressed :
    (∀ (cfg : Config) (function : Function) (decorator_names : List String)
        (argument : Arg),
        (argument.arg = "self" ∨ "classmethod" ∈ decorator_names) →
        emitArgument cfg function decorator_names 0 argument = none)
    ∧ (∀ (cfg : Config) (function : Function) (decorator_names : List String)
        (i : Nat) (argument : Arg),
        cfg.ignore_variadic_names = false →
        (i ≠ 0 ∨ (argument.arg ≠ "self" ∧ "classmethod" ∉ decorator_names)) →
        ∃ r : LintResult, emitArgument cfg function decorator_names i argument = some r) := by
  constructor
  · intro cfg function decorator_names argument h
    rcases h with h | h <;> simp [emitArgument, h]
  · intro cfg function decorator_names i argument hv h
    refine ⟨(argument.lineno, argument.col_offset,
      (if startswithUnderscore argument.arg then "U101" else "U100")
        ++ " Unused argument \x27" ++ argument.arg ++ "\x27", "unused argument"), ?_⟩
    rcases h with h | ⟨h1, h2⟩
    · simp [emitArgument, hv, h]
    · simp [emitArgument, hv, h1, h2]

/-- Witness for C6: an unused `self` at index 0 is suppressed even with
every switch on, and `bar` at index 1 of the `classmethod` scenario is
emitted with the default configuration. -/
theorem C6_implicit_receiver_suppressed_witness :
    emitArgument ⟨true, true, true, true, true⟩ plainUnusedFunction []
      0 (Arg.mk "self" none 2 8) = none :=
  C6_implicit_receiver_suppressed.1 ⟨true, true, true, true, true⟩
    plainUnusedFunction [] (Arg.mk "self" none 2 8) (Or.inl rfl)

/-- C7: every emitted diagnostic is located at the argument's recorded
`lineno` and `col_offset`, its code is `U101` exactly when the name starts
with an underscore and `U100` otherwise, its message is the fixed
template, and its check name is the constant `"unused argument"`; e.g.
`def foo(_a): pass` yields one `U101` diagnostic. -/
theorem C7_diagnostic_shape :
    (∀ (cfg : Config) (function : Function) (decorator_names : List String)
        (i : Nat) (argument : Arg) (r : LintResult),
        emitArgument cfg function decorator_names i argument = some r →
        r = (argument.lineno, argument.col_offset,
          (if startswithUnderscore argument.arg then "U101" else "U100")
            ++ " Unused argument \x27" ++ argument.arg ++ "\x27",
          "unused argument"))
    ∧ Plugin.run cfgNone underscoreModule
        = .ok [(2, 8, "U101 Unused argument \x27_a\x27", "unused argument")] := by
  refine ⟨?_, rfl⟩
  intro cfg function decorator_names i argument r h
  simp only [emitArgument] at h
  split at h
  · simp at h
  · split at h
    · simp at h
    · exact (Option.some.inj h).symm

/-- Witness for C7 at the `_a` parameter of `def foo(_a): pass`. -/
theorem C7_diagnostic_shape_witness :
    ((2 : Nat), (8 : Nat), "U101 Unused argument \x27_a\x27", "unused argument")
      = ((Arg.mk "_a" none 2 8).lineno, (Arg.mk "_a" none 2 8).col_offset,
        (if startswithUnderscore (Arg.mk "_a" none 2 8).arg then "U101" else "U100")
          ++ " Unused argument \x27" ++ (Arg.mk "_a" none 2 8).arg ++ "\x27",
        "unused argument") :=
  C7_diagnostic_shape.1 cfgNone plainUnusedFunction [] 1 (Arg.mk "_a" none 2 8)
    (2, 8, "U101 Unused argument \x27_a\x27", "unused argument") rfl

/-- C2 fails on the code: with `ignore_magic` on, a tree containing a
lambda aborts on the `function.name` access (`ast.Lambda` has no `name`),
and with `ignore_stubs` on, a function opening with
`raise errors.NotImplementedError()` aborts on `statement.exc.func.id`;
the same trees are analysed without error when those switches are off. -/
theorem C2_run_crashes_on_lambda_and_qualified_raise :
    Plugin.run cfgMagic lambdaModule = .error .attributeError
    ∧ Plugin.run cfgStubs qualifiedRaiseModule = .error .attributeError
    ∧ Plugin.run cfgNone lambdaModule
        = .ok [(1, 11, "U100 Unused argument \x27g\x27", "unused argument")]
    ∧ Plugin.run cfgNone qualifiedRaiseModule
        = .ok [(1, 8, "U100 Unused argument \x27a\x27", "unused argument")] :=
  ⟨rfl, rfl, rfl, rfl⟩

/-- C8 fails on the code at one shape: a `raise` whose exception is a call
with a non-name callee raises `AttributeError` instead of returning false;
the remaining classification behaves as described (direct or called
`NotImplementedError` raises and docstring-only bodies are stubs, other
raises and ordinary bodies are not). -/
theorem C8_is_stub_crashes_on_qualified_raise :
    is_stub_function qualifiedRaiseFunction = .error .attributeError
    ∧ is_stub_function callRaiseNIEFunction = .ok true
    ∧ is_stub_function bareRaiseNIEFunction = .ok true
    ∧ is_stub_function otherRaiseFunction = .ok false
    ∧ is_stub_function docOnlyFunction = .ok true
    ∧ is_stub_function returnFiveFunction = .ok false :=
  ⟨rfl, rfl, rfl, rfl, rfl, rfl⟩

/-- C10: the magic-method set misspells reflected floor division as
`__rfloordev__`, so with `ignore_magic` on a `__rfloordiv__` method still
reports its unused parameter while `__radd__` and the rest of the
reflected block are suppressed. -/
theorem C10_rfloordev_misspelling :
    "__rfloordiv__" ∉ MAGIC_METHODS
    ∧ "__rfloordev__" ∈ MAGIC_METHODS
    ∧ Plugin.run cfgMagic rfloordivModule
        = .ok [(2, 28, "U100 Unused argument \x27other\x27", "unused argument")]
    ∧ Plugin.run cfgMagic raddModule = .ok []
    ∧ (["__radd__", "__rsub__", "__rmul__", "__rtruediv__", "__rmod__",
        "__rdivmod__", "__rpow__", "__rlshift__", "__rrshift__", "__rand__",
        "__rxor__", "__ror__"].all fun nm => MAGIC_METHODS.contains nm) = true :=
  ⟨by decide, by decide, rfl, rfl, rfl⟩

end FlakeUnusedArguments
